import Mathlib

/-!
Shallow embedding of the CHIP-8 instruction engine of `src/cpu.rs`
(crate pitch1002).

Conventions of the embedding:
- `u8`/`u16` machine integers become `Nat` with explicit `% 256` / `% 65536`
  at the operations where the source wraps; the source's in-range typing
  (e.g. register values are `u8`, hence `< 256`) appears as hypotheses where
  a theorem needs it.
- Rust arrays become total functions `Nat → _`; an indexing operation whose
  index can exceed the array length in the source is embedded as a bounds
  check returning `Option` (`none` models the Rust panic, which aborts with
  no further observable state).  Indexing that is structurally in bounds in
  the source (register file indexed by instruction nibbles `< 16`, display
  indexed by `y % 32 * 64 + x % 64 < 2048`) is embedded as a plain
  application.
- Fallible operations (ones that can panic) return `Option Cpu`.
-/

namespace Pitch

/-- CHIP-8 display width (`DISPLAY_WIDTH` in src/cpu.rs). -/
def DISPLAY_WIDTH : Nat := 64
/-- CHIP-8 display height (`DISPLAY_HEIGHT` in src/cpu.rs). -/
def DISPLAY_HEIGHT : Nat := 32
/-- Length of the display 1D array (`DISPLAY_DATA_LEN` in src/cpu.rs). -/
def DISPLAY_DATA_LEN : Nat := DISPLAY_WIDTH * DISPLAY_HEIGHT
/-- Max memory size (`MEMORY_CAPACITY` in src/cpu.rs). -/
def MEMORY_CAPACITY : Nat := 4096
/-- Max stack size (`STACK_CAPACITY` in src/cpu.rs). -/
def STACK_CAPACITY : Nat := 16
/-- Starting address of the program in the memory (`START_PC` in src/cpu.rs). -/
def START_PC : Nat := 0x200

/-- Length of the built-in font table (`CHIP_FONT_LEN` in src/font.rs):
16 glyphs of 5 bytes each. -/
def CHIP_FONT_LEN : Nat := 80

/-- Modelled from the spec: `CHIP_FONT` lives in src/font.rs, which is not
among the provided sources.  The spec fixes only its shape — a built-in font
sprite table of 16 glyphs × 5 bytes with fixed content, loaded once at
construction into addresses 0x000..0x050.  The bytes below are the standard
CHIP-8 hex-digit glyphs; no claim in this development depends on the actual
byte values, only on the table's length and on it being constant. -/
def CHIP_FONT : List Nat :=
  [0xF0, 0x90, 0x90, 0x90, 0xF0,
   0x20, 0x60, 0x20, 0x20, 0x70,
   0xF0, 0x10, 0xF0, 0x80, 0xF0,
   0xF0, 0x10, 0xF0, 0x10, 0xF0,
   0x90, 0x90, 0xF0, 0x10, 0x10,
   0xF0, 0x80, 0xF0, 0x10, 0xF0,
   0xF0, 0x80, 0xF0, 0x90, 0xF0,
   0xF0, 0x10, 0x20, 0x40, 0x40,
   0xF0, 0x90, 0xF0, 0x90, 0xF0,
   0xF0, 0x90, 0xF0, 0x10, 0xF0,
   0xF0, 0x90, 0xF0, 0x90, 0x90,
   0xE0, 0x90, 0xE0, 0x90, 0xE0,
   0xF0, 0x80, 0x80, 0x80, 0xF0,
   0xE0, 0x90, 0x90, 0x90, 0xE0,
   0xF0, 0x80, 0xF0, 0x80, 0xF0,
   0xF0, 0x80, 0xF0, 0x80, 0x80]

/-- Pointwise update of a function representing an array cell write. -/
def upd {α : Type} (f : Nat → α) (k : Nat) (x : α) : Nat → α :=
  fun a => if a = k then x else f a

@[simp] theorem upd_same {α : Type} (f : Nat → α) (k : Nat) (x : α) :
    upd f k x k = x := by simp [upd]

@[simp] theorem upd_ne {α : Type} (f : Nat → α) (k : Nat) (x : α) (a : Nat)
    (h : a ≠ k) : upd f k x a = f a := by simp [upd, h]

/-- CHIP-8 cpu (`struct Cpu` in src/cpu.rs).  Field meanings and names follow
the source; array fields are functions, machine integers are `Nat`. -/
structure Cpu where
  /-- Whether the game is loaded. -/
  ready : Bool
  /-- V registers (`v: [u8; 16]`). -/
  v : Nat → Nat
  /-- I register (`i: u16`). -/
  i : Nat
  /-- Program counter (`pc: u16`). -/
  pc : Nat
  /-- Stack pointer (`sp: u8`). -/
  sp : Nat
  /-- Delay timer (`dt: u8`). -/
  dt : Nat
  /-- Sound timer (`st: u8`). -/
  st : Nat
  /-- Return-address stack (`stack: [u16; 16]`). -/
  stack : Nat → Nat
  /-- Memory (`memory: [u8; 4096]`). -/
  memory : Nat → Nat
  /-- Display pixels (`display: [bool; 2048]`). -/
  display : Nat → Bool
  /-- Step counter used by the PRNG (`tick: u16`). -/
  tick : Nat
  /-- Whether to increase the program counter by 2 after execute. -/
  jump_next : Bool
  display_changed : Bool
  /-- Pending key-wait register (`waiting_button_for: Option<u8>`). -/
  waiting_button_for : Option Nat
  /-- Pressed state of the 16 buttons (`buttons: [bool; 16]`). -/
  buttons : Nat → Bool

namespace Cpu

/-- `impl Default for Cpu` in src/cpu.rs: font stored at 0x0..CHIP_FONT_LEN,
pc at START_PC, everything else zeroed/cleared, `jump_next` true. -/
def default : Cpu where
  ready := false
  v := fun _ => 0
  i := 0
  pc := START_PC
  sp := 0
  dt := 0
  st := 0
  stack := fun _ => 0
  memory := fun a => if a < CHIP_FONT_LEN then CHIP_FONT.getD a 0 else 0
  display := fun _ => false
  tick := 0
  jump_next := true
  display_changed := false
  waiting_button_for := none
  buttons := fun _ => false

/-- `Cpu::load`: copies the program bytes into memory at `START_PC` and sets
`ready`.  The source slices `memory[0x200 .. 0x200 + bytes.len()]`, which
panics (modelled as `none`) when `bytes.len() > 4096 - 0x200 = 3584`; the
panic happens before any byte is written. -/
def load (s : Cpu) (bytes : List Nat) : Option Cpu :=
  if START_PC + bytes.length ≤ MEMORY_CAPACITY then
    some { s with
            memory := fun a =>
              if START_PC ≤ a ∧ a < START_PC + bytes.length then
                bytes.getD (a - START_PC) 0
              else s.memory a,
            ready := true }
  else none

/-- `Cpu::unload`: `*self = Self::default(); self.ready = false;`. -/
def unload (_s : Cpu) : Cpu := { Cpu.default with ready := false }

/-- `Cpu::restart`: all fields from `Default::default()` except `memory`,
which is kept. -/
def restart (s : Cpu) : Cpu := { Cpu.default with memory := s.memory }

/-- `Cpu::step_timers`: `saturating_sub(1)` on both timers (truncated `Nat`
subtraction is exactly `u8::saturating_sub` for in-range values). -/
def step_timers (s : Cpu) : Cpu := { s with dt := s.dt - 1, st := s.st - 1 }

/-- `Cpu::get`: read register Vx.  Every call site in the source passes an
index `< 16` (an instruction nibble), so the access is structurally in
bounds. -/
def get (s : Cpu) (x : Nat) : Nat := s.v x

/-- `Cpu::set`: write register Vx (same bounds remark as `get`). -/
def set (s : Cpu) (x value : Nat) : Cpu := { s with v := upd s.v x value }

/-- `Cpu::button_pressed`: latch the button, then resolve a pending key-wait
synchronously.  The source indexes `buttons[btn]`, which panics for
`btn ≥ 16` (modelled as `none`); the windowing layer only produces codes
in `0x0..=0xF`. -/
def button_pressed (s : Cpu) (btn : Nat) : Option Cpu :=
  if btn < 16 then
    let s1 := { s with buttons := upd s.buttons btn true }
    match s1.waiting_button_for with
    | some wait_for => some { s1.set wait_for btn with waiting_button_for := none }
    | none => some s1
  else none

/-- `Cpu::button_released`. -/
def button_released (s : Cpu) (btn : Nat) : Option Cpu :=
  if btn < 16 then some { s with buttons := upd s.buttons btn false } else none

/-- `Cpu::is_btn_pressed`: `self.buttons[btn as usize]` — panics (modelled as
`none`) when `btn ≥ 16`.  `btn` comes from a register value, so a malformed
program can drive it out of range. -/
def is_btn_pressed (s : Cpu) (btn : Nat) : Option Bool :=
  if btn < 16 then some (s.buttons btn) else none

/-- `Cpu::clear`. -/
def clear (s : Cpu) : Cpu :=
  { s with display := fun _ => false, display_changed := true }

end Cpu

/-- The inner shift test of `Cpu::draw`: after `col` times `sprite <<= 1`
(u8, truncating) starting from byte `b`, the source tests
`sprite & 0x80 != 0`.  The running value after `col` shifts is
`(b <<< col) % 256`. -/
def spriteHit (b col : Nat) : Bool :=
  ((b <<< col) % 256) &&& 0x80 != 0

/-- Display index hit by sprite cell `(row, col)` in `Cpu::draw`:
`let x = (vx + col) % sw; let y = (vy + row) % sh; let idx = y * sw + x;`. -/
def target (vx vy : Nat) (p : Nat × Nat) : Nat :=
  ((vy + p.1) % DISPLAY_HEIGHT) * DISPLAY_WIDTH + ((vx + p.2) % DISPLAY_WIDTH)

/-- The `(row, col)` pairs visited by the two nested loops of `Cpu::draw`,
in source iteration order (`row` outer over `0..n`, `col` inner over
`0..8`). -/
def drawPairs (n : Nat) : List (Nat × Nat) :=
  (List.range n).flatMap fun row => (List.range 8).map fun col => (row, col)

/-- One iteration of the inner loop body of `Cpu::draw`, acting on the pair
(display, overlaps): if the sprite pixel exists, flip the display pixel at
its (wrapped) index, recording an overlap when the pixel goes on → off. -/
def drawStep (mem : Nat → Nat) (i vx vy : Nat)
    (acc : (Nat → Bool) × Bool) (p : Nat × Nat) : (Nat → Bool) × Bool :=
  if spriteHit (mem (i + p.1)) p.2 then
    let idx := target vx vy p
    if acc.1 idx then (upd acc.1 idx false, true)
    else (upd acc.1 idx true, acc.2)
  else acc

namespace Cpu

/-- `Cpu::draw`: XOR an `n`-row sprite read from `memory[I..]` onto the
display at `(Vx, Vy)` with wraparound, then write the overlap flag into VF
and raise `display_changed`.  The source reads `memory[I + row]` for each
`row < n`, which panics (modelled as `none`) when any such index reaches
4096; a panic aborts, so the partial display writes preceding it are
unobservable. -/
def draw (s : Cpu) (x y n : Nat) : Option Cpu :=
  if (List.range n).all (fun row => s.i + row < MEMORY_CAPACITY) then
    let vx := s.get x
    let vy := s.get y
    let r := (drawPairs n).foldl (drawStep s.memory s.i vx vy) (s.display, false)
    some { s.set 0xF (if r.2 then 1 else 0) with
            display := r.1, display_changed := true }
  else none

/-- `Cpu::jump`. -/
def jump (s : Cpu) (addr : Nat) : Cpu :=
  { s with pc := addr, jump_next := false }

/-- `Cpu::call`: `stack[sp] = pc; sp = (sp + 1).min(15);` then `jump addr`.
The write `stack[sp]` would panic for `sp ≥ 16` (modelled as `none`); the
`min` keeps `sp ≤ 15` in every reachable state, so the check never fires in
a real run. -/
def call (s : Cpu) (addr : Nat) : Option Cpu :=
  if s.sp < STACK_CAPACITY then
    some (Cpu.jump
      { s with stack := upd s.stack s.sp s.pc,
               sp := min (s.sp + 1) (STACK_CAPACITY - 1) } addr)
  else none

/-- `Cpu::ret`: `sp = sp.saturating_sub(1); pc = stack[sp];`.  The read
`stack[sp]` would panic for the new `sp ≥ 16` (modelled as `none`). -/
def ret (s : Cpu) : Option Cpu :=
  if s.sp - 1 < STACK_CAPACITY then
    some { s with sp := s.sp - 1, pc := s.stack (s.sp - 1) }
  else none

/-- `Cpu::skip_vx_eq_byte`. -/
def skip_vx_eq_byte (s : Cpu) (x byte : Nat) : Cpu :=
  if s.get x = byte then { s with pc := s.pc + 2 } else s

/-- `Cpu::skip_vx_neq_byte`. -/
def skip_vx_neq_byte (s : Cpu) (x byte : Nat) : Cpu :=
  if s.get x ≠ byte then { s with pc := s.pc + 2 } else s

/-- `Cpu::skip_vx_eq_vy`. -/
def skip_vx_eq_vy (s : Cpu) (x y : Nat) : Cpu :=
  if s.get x = s.get y then { s with pc := s.pc + 2 } else s

/-- `Cpu::skip_vx_neq_vy`. -/
def skip_vx_neq_vy (s : Cpu) (x y : Nat) : Cpu :=
  if s.get x ≠ s.get y then { s with pc := s.pc + 2 } else s

/-- `Cpu::add_vx_byte`: wrapping u8 addition. -/
def add_vx_byte (s : Cpu) (x byte : Nat) : Cpu :=
  s.set x ((s.get x + byte) % 256)

/-- `Cpu::set_vx_vy`. -/
def set_vx_vy (s : Cpu) (x y : Nat) : Cpu :=
  s.set x (s.get y)

/-- `Cpu::add_vx_vy`: `overflowing_add` on u8 — the wrapped sum goes into
Vx first, then the carry flag into VF. -/
def add_vx_vy (s : Cpu) (x y : Nat) : Cpu :=
  (s.set x ((s.get x + s.get y) % 256)).set 0xF
    (if 256 ≤ s.get x + s.get y then 1 else 0)

/-- `Cpu::sub_vx_vy`: `overflowing_sub` on u8 — the wrapped difference goes
into Vx first, then `!underflow` (1 when no borrow, 0 when borrow) into VF.
For in-range (`< 256`) operands `(a + 256 - b) % 256` is exactly
`u8::wrapping_sub`. -/
def sub_vx_vy (s : Cpu) (x y : Nat) : Cpu :=
  (s.set x ((s.get x + 256 - s.get y) % 256)).set 0xF
    (if s.get x < s.get y then 0 else 1)

/-- `Cpu::sub_vy_vx`: like `sub_vx_vy` with the operands swapped; the result
still lands in Vx. -/
def sub_vy_vx (s : Cpu) (y x : Nat) : Cpu :=
  (s.set x ((s.get y + 256 - s.get x) % 256)).set 0xF
    (if s.get y < s.get x then 0 else 1)

/-- `Cpu::or`. -/
def or (s : Cpu) (x y : Nat) : Cpu :=
  s.set x (s.get x ||| s.get y)

/-- `Cpu::and`. -/
def and (s : Cpu) (x y : Nat) : Cpu :=
  s.set x (s.get x &&& s.get y)

/-- `Cpu::xor`. -/
def xor (s : Cpu) (x y : Nat) : Cpu :=
  s.set x (s.get x ^^^ s.get y)

/-- `Cpu::shift_right`: note the source order — VF is written FIRST
(`set(0xF, get(x) & 1)`), and only then `v[x] >>= 1`, which reads the cell
again (observable when `x = 0xF`). -/
def shift_right (s : Cpu) (x : Nat) : Cpu :=
  let s1 := s.set 0xF (s.get x &&& 0x1)
  { s1 with v := upd s1.v x (s1.v x >>> 1) }

/-- `Cpu::shift_left`: VF is written FIRST (`set(0xF, get(x) & 0x80)`), then
`v[x] <<= 1` (u8, truncating) reads the cell again. -/
def shift_left (s : Cpu) (x : Nat) : Cpu :=
  let s1 := s.set 0xF (s.get x &&& 0x80)
  { s1 with v := upd s1.v x ((s1.v x <<< 1) % 256) }

end Cpu

/-- Modelled from the spec: the source computes
`(((tick as f32 * 99999.0).sin() + 1.0) / 2.0 * 255.0) as u8`, a
deterministic byte-valued hash of the tick counter using 32-bit floating
point `sin`, which this embedding cannot represent.  The spec states that
the only contract is "produces a byte, AND it with the mask" and that the
exact PRNG is an implementation detail; no claim depends on the value, so
any fixed byte-valued function of the tick serves. -/
def randByte (tick : Nat) : Nat := (tick * 99999) % 256

namespace Cpu

/-- `Cpu::rand`: pseudo-random byte ANDed with the mask. -/
def rand (s : Cpu) (x byte : Nat) : Cpu :=
  s.set x (randByte s.tick &&& byte)

/-- `Cpu::add_i_vx`: `i = i.wrapping_add(get(x) as u16)`. -/
def add_i_vx (s : Cpu) (x : Nat) : Cpu :=
  { s with i := (s.i + s.get x) % 65536 }

/-- `Cpu::set_i_sprite`: `i = get(x) as u16 * 5` (no overflow: `≤ 1275`). -/
def set_i_sprite (s : Cpu) (x : Nat) : Cpu :=
  { s with i := s.get x * 5 }

/-- `Cpu::skip_pressed`: reads `buttons[get(x)]` via `is_btn_pressed`; a
register value `≥ 16` makes the source panic (modelled as `none`). -/
def skip_pressed (s : Cpu) (x : Nat) : Option Cpu :=
  match s.is_btn_pressed (s.get x) with
  | none => none
  | some b => some (if b then { s with pc := s.pc + 2 } else s)

/-- `Cpu::skip_not_pressed`. -/
def skip_not_pressed (s : Cpu) (x : Nat) : Option Cpu :=
  match s.is_btn_pressed (s.get x) with
  | none => none
  | some b => some (if b then s else { s with pc := s.pc + 2 })

/-- `Cpu::wait_for_keypress`. -/
def wait_for_keypress (s : Cpu) (x : Nat) : Cpu :=
  { s with waiting_button_for := some x }

/-- `Cpu::store_bcd`: hundreds/tens/ones of Vx into `memory[I..=I+2]`.
Panics (modelled as `none`) when `I + 2 ≥ 4096`; the panic aborts, so any
preceding partial write is unobservable. -/
def store_bcd (s : Cpu) (x : Nat) : Option Cpu :=
  if s.i + 2 < MEMORY_CAPACITY then
    let m1 := upd s.memory s.i (s.get x / 100)
    let m2 := upd m1 (s.i + 1) (s.get x % 100 / 10)
    let m3 := upd m2 (s.i + 2) (s.get x % 10)
    some { s with memory := m3 }
  else none

/-- `Cpu::store_through`: for `xx in 0..=x`, `memory[I + xx] = get(xx)`.
The largest index is `I + x`; out of range panics (modelled as `none`). -/
def store_through (s : Cpu) (x : Nat) : Option Cpu :=
  if s.i + x < MEMORY_CAPACITY then
    some ((List.range (x + 1)).foldl
      (fun st xx => { st with memory := upd st.memory (st.i + xx) (st.get xx) }) s)
  else none

/-- `Cpu::read_through`: for `xx in 0..=x`, `set(xx, memory[I + xx])`. -/
def read_through (s : Cpu) (x : Nat) : Option Cpu :=
  if s.i + x < MEMORY_CAPACITY then
    some ((List.range (x + 1)).foldl
      (fun st xx => st.set xx (st.memory (st.i + xx))) s)
  else none

end Cpu

/-- High nibble `a = (ins & 0xF000) >> 12` of the decode in
`Cpu::execute`. -/
def nibA (ins : Nat) : Nat := (ins &&& 0xF000) >>> 12

/-- Nibble `b = (ins & 0x0F00) >> 8`, also the register selector `x`. -/
def nibB (ins : Nat) : Nat := (ins &&& 0x0F00) >>> 8

/-- Nibble `c = (ins & 0x00F0) >> 4`, also the register selector `y`. -/
def nibC (ins : Nat) : Nat := (ins &&& 0x00F0) >>> 4

/-- Low nibble `d = ins & 0x000F`, also the draw height `n`. -/
def nibD (ins : Nat) : Nat := ins &&& 0x000F

/-- `NNN` address field `ins & 0x0FFF`. -/
def insAddr (ins : Nat) : Nat := ins &&& 0x0FFF

/-- `KK` byte field `ins & 0x00FF`. -/
def insByte (ins : Nat) : Nat := ins &&& 0x00FF

namespace Cpu

/-- `Cpu::execute`: nibble decode and 35-way dispatch over `(a, b, c, d)`.
The source's `match` tests its arms in order; this embedding writes the
same arms, in the same order, as a chain of nibble-equality tests
(patterns such as `(0x8, _, _, 4)` become `a = 0x8 ∧ d = 4`).  The
source's `x`, `y` and `nibble` operands are `nibB ins`, `nibC ins` and
`nibD ins`.  Unmatched instruction words — including the legacy `0NNN`
arm — are no-ops. -/
def execute (s : Cpu) (ins : Nat) : Option Cpu :=
  if nibA ins = 0x0 ∧ nibB ins = 0x0 ∧ nibC ins = 0xE ∧ nibD ins = 0x0 then
    some s.clear
  else if nibA ins = 0xD then s.draw (nibB ins) (nibC ins) (nibD ins)
  else if nibA ins = 0x1 then some (s.jump (insAddr ins))
  else if nibA ins = 0xB then some (s.jump (insAddr ins + s.get 0))
  else if nibA ins = 0x2 then s.call (insAddr ins)
  else if nibA ins = 0x0 ∧ nibB ins = 0x0 ∧ nibC ins = 0xE ∧ nibD ins = 0xE
    then s.ret
  else if nibA ins = 0x3 then some (s.skip_vx_eq_byte (nibB ins) (insByte ins))
  else if nibA ins = 0x4 then some (s.skip_vx_neq_byte (nibB ins) (insByte ins))
  else if nibA ins = 0x5 then some (s.skip_vx_eq_vy (nibB ins) (nibC ins))
  else if nibA ins = 0x9 ∧ nibD ins = 0x0 then
    some (s.skip_vx_neq_vy (nibB ins) (nibC ins))
  else if nibA ins = 0x6 then some (s.set (nibB ins) (insByte ins))
  else if nibA ins = 0x7 then some (s.add_vx_byte (nibB ins) (insByte ins))
  else if nibA ins = 0x8 ∧ nibD ins = 0x0 then
    some (s.set_vx_vy (nibB ins) (nibC ins))
  else if nibA ins = 0x8 ∧ nibD ins = 0x4 then
    some (s.add_vx_vy (nibB ins) (nibC ins))
  else if nibA ins = 0x8 ∧ nibD ins = 0x5 then
    some (s.sub_vx_vy (nibB ins) (nibC ins))
  else if nibA ins = 0x8 ∧ nibD ins = 0x7 then
    some (s.sub_vy_vx (nibC ins) (nibB ins))
  else if nibA ins = 0x8 ∧ nibD ins = 0x1 then
    some (s.or (nibB ins) (nibC ins))
  else if nibA ins = 0x8 ∧ nibD ins = 0x2 then
    some (s.and (nibB ins) (nibC ins))
  else if nibA ins = 0x8 ∧ nibD ins = 0x3 then
    some (s.xor (nibB ins) (nibC ins))
  else if nibA ins = 0x8 ∧ nibD ins = 0x6 then some (s.shift_right (nibB ins))
  else if nibA ins = 0x8 ∧ nibD ins = 0xE then some (s.shift_left (nibB ins))
  else if nibA ins = 0xC then some (s.rand (nibB ins) (insByte ins))
  else if nibA ins = 0xF ∧ nibC ins = 0x0 ∧ nibD ins = 0x7 then
    some (s.set (nibB ins) s.dt)
  else if nibA ins = 0xF ∧ nibC ins = 0x1 ∧ nibD ins = 0x5 then
    some { s with dt := s.get (nibB ins) }
  else if nibA ins = 0xF ∧ nibC ins = 0x1 ∧ nibD ins = 0x8 then
    some { s with st := s.get (nibB ins) }
  else if nibA ins = 0xA then some { s with i := insAddr ins }
  else if nibA ins = 0xF ∧ nibC ins = 0x1 ∧ nibD ins = 0xE then
    some (s.add_i_vx (nibB ins))
  else if nibA ins = 0xF ∧ nibC ins = 0x2 ∧ nibD ins = 0x9 then
    some (s.set_i_sprite (nibB ins))
  else if nibA ins = 0xE ∧ nibC ins = 0x9 ∧ nibD ins = 0xE then
    s.skip_pressed (nibB ins)
  else if nibA ins = 0xE ∧ nibC ins = 0xA ∧ nibD ins = 0x1 then
    s.skip_not_pressed (nibB ins)
  else if nibA ins = 0xF ∧ nibC ins = 0x0 ∧ nibD ins = 0xA then
    some (s.wait_for_keypress (nibB ins))
  else if nibA ins = 0xF ∧ nibC ins = 0x3 ∧ nibD ins = 0x3 then
    s.store_bcd (nibB ins)
  else if nibA ins = 0xF ∧ nibC ins = 0x5 ∧ nibD ins = 0x5 then
    s.store_through (nibB ins)
  else if nibA ins = 0xF ∧ nibC ins = 0x6 ∧ nibD ins = 0x5 then
    s.read_through (nibB ins)
  else some s

/-- The non-waiting body of `Cpu::step`: bump the tick, fetch the 16-bit
instruction word from `memory[pc]`/`memory[pc + 1]` (panics — `none` — when
`pc + 1 ≥ 4096`), execute it, then advance pc by 2 unless a jump suppressed
it, and reset `jump_next`. -/
def step_exec (s : Cpu) : Option Cpu :=
  let s1 : Cpu := { s with tick := (s.tick + 1) % 65536 }
  if s.pc + 1 < MEMORY_CAPACITY then
    let ins := (s1.memory s.pc) <<< 8 ||| s1.memory (s.pc + 1)
    match s1.execute ins with
    | some s2 =>
      some (if s2.jump_next then { s2 with pc := s2.pc + 2, jump_next := true }
            else { s2 with jump_next := true })
    | none => none
  else none

/-- `Cpu::step`: a no-op while a key-wait is pending, otherwise one
fetch-decode-execute round. -/
def step (s : Cpu) : Option Cpu :=
  match s.waiting_button_for with
  | some _ => some s
  | none => s.step_exec

/-- `n` consecutive `step()` calls, propagating a panic. -/
def stepN (s : Cpu) : Nat → Option Cpu
  | 0 => some s
  | n + 1 => s.step.bind fun s1 => s1.stepN n

end Cpu

/-- Engine states reachable through the public interface: construction,
loading, stepping, timer ticks, key events, restart and unload (a
transition that would panic has no successor). -/
inductive Reachable : Cpu → Prop where
  | init : Reachable Cpu.default
  | load {s s' : Cpu} {prog : List Nat} :
      Reachable s → s.load prog = some s' → Reachable s'
  | step {s s' : Cpu} : Reachable s → s.step = some s' → Reachable s'
  | timers {s : Cpu} : Reachable s → Reachable s.step_timers
  | press {s s' : Cpu} {k : Nat} :
      Reachable s → s.button_pressed k = some s' → Reachable s'
  | release {s s' : Cpu} {k : Nat} :
      Reachable s → s.button_released k = some s' → Reachable s'
  | restart {s : Cpu} : Reachable s → Reachable s.restart
  | unload {s : Cpu} : Reachable s → Reachable s.unload

/-! ## Claim C8 — restart / unload -/

/-- Counterexample to claim C8: the claim says the engine "remains in the
Ready state" after restart, but `Cpu::restart` rebuilds every field except
`memory` from `Default::default()`, whose `ready` is `false`.  Concretely:
loading the empty program makes the engine ready, and restarting it clears
the ready flag. -/
theorem c8_restart_ready_cex :
    ∃ s : Cpu, Cpu.load Cpu.default [] = some s ∧ s.ready = true ∧
      s.restart.ready = false :=
  ⟨_, rfl, rfl, rfl⟩

/-- Claim C8 as amended: `restart` keeps every byte of memory and resets all
other fields — registers, I, pc, sp, timers, stack, display, tick,
`jump_next`, `display_changed`, wait marker, input latch — to their initial
values, and ALSO resets the `ready` flag to `false` (the engine does not
remain in the Ready state); `unload` additionally resets memory, producing
exactly the freshly-constructed engine. -/
theorem c8_restart_unload (s : Cpu) :
    s.restart.memory = s.memory ∧
    s.restart.v = Cpu.default.v ∧
    s.restart.i = 0 ∧
    s.restart.pc = START_PC ∧
    s.restart.sp = 0 ∧
    s.restart.dt = 0 ∧
    s.restart.st = 0 ∧
    s.restart.stack = Cpu.default.stack ∧
    s.restart.display = Cpu.default.display ∧
    s.restart.tick = 0 ∧
    s.restart.jump_next = true ∧
    s.restart.display_changed = false ∧
    s.restart.waiting_button_for = none ∧
    s.restart.buttons = Cpu.default.buttons ∧
    s.restart.ready = false ∧
    s.unload = Cpu.default :=
  ⟨rfl, rfl, rfl, rfl, rfl, rfl, rfl, rfl, rfl, rfl, rfl, rfl, rfl, rfl, rfl,
   rfl⟩

/-! ## Claim C9 — timers -/

/-- Claim C9: every `step_timers` call decrements both timers by exactly 1,
floored at 0 with no wraparound.  After `k` ticks the delay timer holds
`dt - k` (truncated at 0): in particular from `dt = 5`, five ticks reach 0
and every further tick stays at 0; likewise for the sound timer. -/
theorem c9_timers (s : Cpu) (k : Nat) :
    (Cpu.step_timers^[k] s).dt = s.dt - k ∧
    (Cpu.step_timers^[k] s).st = s.st - k ∧
    (s.dt ≤ k → (Cpu.step_timers^[k] s).dt = 0) ∧
    (k ≤ s.dt → (Cpu.step_timers^[k] s).dt + k = s.dt) := by
  have main : ∀ m : Nat, (Cpu.step_timers^[m] s).dt = s.dt - m ∧
      (Cpu.step_timers^[m] s).st = s.st - m := by
    intro m
    induction m with
    | zero => simp
    | succ m ih =>
      obtain ⟨ih1, ih2⟩ := ih
      constructor <;> rw [Function.iterate_succ_apply'] <;>
        simp [Cpu.step_timers, ih1, ih2] <;> omega
  obtain ⟨h1, h2⟩ := main k
  exact ⟨h1, h2, fun h => by omega, fun h => by omega⟩

/-- Concrete instance of C9: `DT = 5`, seven ticks leave it at 0. -/
theorem c9_timers_witness :
    ({ Cpu.default with dt := 5 } : Cpu).dt ≤ 7 ∧
    (Cpu.step_timers^[7] { Cpu.default with dt := 5 }).dt = 0 :=
  ⟨by decide, (c9_timers { Cpu.default with dt := 5 } 7).2.2.1 (by decide)⟩

/-! ## Claim C10 — zero-height draw -/

/-- Claim C10: the draw opcode with sprite height `n = 0` performs no memory
read and no display write, yet unconditionally overwrites VF with 0 and
raises the display-changed flag; every other part of the state (pc, I,
memory, the other registers) is untouched. -/
theorem c10_draw_zero_height (s : Cpu) (x y : Nat) :
    ∃ s', s.draw x y 0 = some s' ∧
      s'.display = s.display ∧
      s'.v 15 = 0 ∧
      s'.display_changed = true ∧
      s'.pc = s.pc ∧ s'.i = s.i ∧ s'.memory = s.memory ∧
      (∀ j, j ≠ 15 → s'.v j = s.v j) := by
  refine ⟨_, rfl, rfl, ?_, rfl, rfl, rfl, rfl, ?_⟩
  · simp [drawPairs, drawStep, Cpu.set]
  · intro j hj
    simp [drawPairs, drawStep, Cpu.set, upd, hj]

/-! ## Claim C6 — 8xy5 subtract semantics -/

/-- Claim C6: for in-range register values and `x ≠ 0xF`, `sub_vx_vy` sets
`VF = 0` exactly when `Vx < Vy` held before the operation (1 otherwise) and
stores the wrapping mod-256 difference `Vx - Vy` into `Vx` (stated over
`Int` so that "wrapping difference" is the mathematical `(Vx - Vy) mod
256`). -/
theorem c6_sub_vx_vy (s : Cpu) (x y : Nat) (hx : x ≠ 15)
    (ha : s.get x < 256) (hb : s.get y < 256) :
    ((s.sub_vx_vy x y).v 15 = if s.get x < s.get y then 0 else 1) ∧
    (((s.sub_vx_vy x y).v x : Int) =
      ((s.get x : Int) - (s.get y : Int)) % 256) ∧
    ((s.sub_vx_vy x y).v 15 = 0 ↔ s.get x < s.get y) := by
  have hvf : (s.sub_vx_vy x y).v 15 =
      if s.get x < s.get y then 0 else 1 := by
    simp [Cpu.sub_vx_vy, Cpu.set, upd]
  have hvx : (s.sub_vx_vy x y).v x = (s.get x + 256 - s.get y) % 256 := by
    simp [Cpu.sub_vx_vy, Cpu.set, Cpu.get, upd, hx]
  refine ⟨hvf, ?_, ?_⟩
  · rw [hvx]; omega
  · rw [hvf]; split <;> simp_all

/-- Concrete instance of C6: `V0 = 100`, `V1 = 200` — borrow occurs, so
`VF = 0` and `V0` becomes `(100 - 200) mod 256`. -/
theorem c6_sub_vx_vy_witness :
    (0 ≠ 15 ∧
      ({ Cpu.default with v := upd (upd Cpu.default.v 0 100) 1 200 } :
        Cpu).get 0 < 256 ∧
      ({ Cpu.default with v := upd (upd Cpu.default.v 0 100) 1 200 } :
        Cpu).get 1 < 256) ∧
    ((({ Cpu.default with v := upd (upd Cpu.default.v 0 100) 1 200 } :
        Cpu).sub_vx_vy 0 1).v 15 =
      if ({ Cpu.default with v := upd (upd Cpu.default.v 0 100) 1 200 } :
        Cpu).get 0 <
         ({ Cpu.default with v := upd (upd Cpu.default.v 0 100) 1 200 } :
        Cpu).get 1 then 0 else 1) :=
  ⟨⟨by decide, by decide, by decide⟩,
    (c6_sub_vx_vy _ 0 1 (by decide) (by decide) (by decide)).1⟩

/-! ## Claim C5 — flag/result write order -/

/-- A state whose VF register holds 3 (odd, so the shift-right flag bit is
1). -/
def c5State : Cpu := { Cpu.default with v := upd Cpu.default.v 15 3 }

/-- Counterexample to claim C5: for `shift_right` with `x = 0xF` the claim
says the handler writes the result register first and VF second so that the
final VF is the flag value.  The source writes VF FIRST
(`set(0xF, get(x) & 1)`) and then shifts the cell, so with `VF = 3` the
flag value is `3 & 1 = 1` but the final VF is `1 >> 1 = 0`, not the flag
value. -/
theorem c5_shift_flag_order_cex :
    c5State.get 15 &&& 0x1 = 1 ∧ (c5State.shift_right 15).v 15 = 0 := by
  decide

/-- Claim C5 as amended: `add_vx_vy`, `sub_vx_vy` and `sub_vy_vx` write the
result register first and VF second, so the final VF is the ISA flag even
when the result register is VF itself; `draw` writes the framebuffer and
then unconditionally overwrites VF with the 0/1 collision flag.  The two
shift handlers, however, write VF FIRST (the raw masked bit `Vx & 1`
resp. `Vx & 0x80`) and shift the register afterwards, so when `x = 0xF`
the shift destroys the just-written flag and the final VF is 0, not the
flag value. -/
theorem c5_flag_order (s : Cpu) (x y : Nat) :
    ((s.add_vx_vy x y).v 15 = if 256 ≤ s.get x + s.get y then 1 else 0) ∧
    ((s.sub_vx_vy x y).v 15 = if s.get x < s.get y then 0 else 1) ∧
    ((s.sub_vy_vx y x).v 15 = if s.get y < s.get x then 0 else 1) ∧
    (x ≠ 15 → (s.shift_right x).v 15 = s.get x &&& 0x1) ∧
    ((s.shift_right 15).v 15 = 0) ∧
    (x ≠ 15 → (s.shift_left x).v 15 = s.get x &&& 0x80) ∧
    ((s.shift_left 15).v 15 = 0) ∧
    (∀ n s', s.draw x y n = some s' →
      s'.v 15 = 0 ∨ s'.v 15 = 1) := by
  have hbit : ∀ a : Nat, ((a &&& 0x80) <<< 1) % 256 = 0 := by
    intro a
    have h : a &&& 0x80 = (a.testBit 7).toNat * 2 ^ 7 := by
      have h2 := Nat.and_two_pow a 7
      norm_num at h2 ⊢
      exact h2
    rw [h, Nat.shiftLeft_eq]
    cases a.testBit 7 <;> simp
  refine ⟨?_, ?_, ?_, ?_, ?_, ?_, ?_, ?_⟩
  · simp [Cpu.add_vx_vy, Cpu.set, upd]
  · simp [Cpu.sub_vx_vy, Cpu.set, upd]
  · simp [Cpu.sub_vy_vx, Cpu.set, upd]
  · intro hx
    simp [Cpu.shift_right, Cpu.set, Cpu.get, upd, Ne.symm hx, hx]
  · simp only [Cpu.shift_right, Cpu.set, Cpu.get, upd_same]
    rw [Nat.and_one_is_mod, Nat.shiftRight_one]
    omega
  · intro hx
    simp [Cpu.shift_left, Cpu.set, Cpu.get, upd, Ne.symm hx, hx]
  · simp [Cpu.shift_left, Cpu.set, Cpu.get, upd, hbit]
  · intro n s' h
    unfold Cpu.draw at h
    split at h
    · injection h with h
      subst h
      simp only [Cpu.set, upd_same]
      split <;> simp
    · exact Option.noConfusion h

/-- The state produced by drawing a zero-height sprite on the fresh engine
(used by the C5 witness). -/
def c5DrawOut : Cpu :=
  { Cpu.default.set 15 0 with
      display := Cpu.default.display
      display_changed := true }

/-- Concrete instance of the amended C5: on the fresh engine, the shift
handlers with `x = 0` leave the raw masked bit in VF, and a zero-height
draw leaves a 0/1 value in VF. -/
theorem c5_flag_order_witness :
    ((0 : Nat) ≠ 15 ∧
      (Cpu.default.shift_right 0).v 15 = Cpu.default.get 0 &&& 0x1) ∧
    ((0 : Nat) ≠ 15 ∧
      (Cpu.default.shift_left 0).v 15 = Cpu.default.get 0 &&& 0x80) ∧
    (Cpu.default.draw 0 1 0 = some c5DrawOut ∧
      (c5DrawOut.v 15 = 0 ∨ c5DrawOut.v 15 = 1)) :=
  ⟨⟨by decide, (c5_flag_order Cpu.default 0 1).2.2.2.1 (by decide)⟩,
   ⟨by decide, (c5_flag_order Cpu.default 0 1).2.2.2.2.2.1 (by decide)⟩,
   ⟨rfl, (c5_flag_order Cpu.default 0 1).2.2.2.2.2.2.2 0 c5DrawOut rfl⟩⟩

/-! ## Claim C2 — load -/

/-- Claim C2, with the error channel corrected to what the code does: an
input longer than `4096 - 0x200 = 3584` bytes makes `Cpu::load` fail before
any byte of memory is written (the source panics on the slice
`memory[0x200..0x200 + len]`; there is no `OversizedProgram` error value
anywhere in the crate — the function has no error channel at all); an
input of length `≤ 3584` is copied into memory starting at `0x200`,
leaves every byte outside `0x200..0x200+len` unchanged, marks the engine
ready, and touches nothing else. -/
theorem c2_load_contract :
    Cpu.load Cpu.default (List.replicate 3585 0) = none ∧
    ∀ (s : Cpu) (bytes : List Nat), bytes.length ≤ 3584 →
      ∃ s', s.load bytes = some s' ∧ s'.ready = true ∧
        (∀ j, j < bytes.length → s'.memory (START_PC + j) = bytes.getD j 0) ∧
        (∀ a, a < START_PC ∨ START_PC + bytes.length ≤ a →
          s'.memory a = s.memory a) ∧
        s'.pc = s.pc ∧ s'.v = s.v ∧ s'.sp = s.sp ∧ s'.i = s.i := by
  constructor
  · have h : ¬(START_PC + (List.replicate 3585 (0 : Nat)).length ≤
        MEMORY_CAPACITY) := by
      rw [List.length_replicate]
      simp [START_PC, MEMORY_CAPACITY]
    rw [Cpu.load, if_neg h]
  · intro s bytes hlen
    have hc : START_PC + bytes.length ≤ MEMORY_CAPACITY := by
      simp only [START_PC, MEMORY_CAPACITY]
      omega
    rw [Cpu.load, if_pos hc]
    refine ⟨_, rfl, rfl, ?_, ?_, rfl, rfl, rfl, rfl⟩
    · intro j hj
      have h1 : START_PC ≤ START_PC + j := Nat.le_add_right _ _
      have h2 : START_PC + j < START_PC + bytes.length := by omega
      simp [h1, h2]
    · intro a ha
      have h3 : ¬(START_PC ≤ a ∧ a < START_PC + bytes.length) := by
        simp only [START_PC] at ha ⊢
        omega
      simp [h3]

/-- Concrete instance of C2's in-range case: loading a two-byte program. -/
theorem c2_load_contract_witness :
    ([7, 9] : List Nat).length ≤ 3584 ∧
    (∃ s', Cpu.default.load [7, 9] = some s' ∧ s'.ready = true ∧
      (∀ j, j < ([7, 9] : List Nat).length →
        s'.memory (START_PC + j) = ([7, 9] : List Nat).getD j 0) ∧
      (∀ a, a < START_PC ∨ START_PC + ([7, 9] : List Nat).length ≤ a →
        s'.memory a = Cpu.default.memory a) ∧
      s'.pc = Cpu.default.pc ∧ s'.v = Cpu.default.v ∧
      s'.sp = Cpu.default.sp ∧ s'.i = Cpu.default.i) :=
  ⟨by decide, c2_load_contract.2 Cpu.default [7, 9] (by decide)⟩

/-! ## Claim C3 — blocking key-wait -/

/-- Claim C3: while the wait marker is set, `step` leaves the whole state
(in particular the pc) unchanged for any number of calls; a
`button_pressed k` event synchronously — inside the event call itself —
writes `k` into the waiting register, clears the marker and leaves the pc
alone, after which `step` goes through the normal fetch-execute path.
(`wait_for_keypress` is what sets the marker when opcode `Fx0A`
executes.) -/
theorem c3_key_wait (s : Cpu) (x k n : Nat)
    (hw : s.waiting_button_for = some x) (hk : k < 16) :
    s.stepN n = some s ∧
    (∀ t : Cpu, (t.wait_for_keypress x).waiting_button_for = some x) ∧
    ∃ s', s.button_pressed k = some s' ∧ s'.v x = k ∧
      s'.waiting_button_for = none ∧ s'.pc = s.pc ∧
      s'.step = s'.step_exec := by
  have hstep : s.step = some s := by
    unfold Cpu.step
    rw [hw]
  refine ⟨?_, fun t => rfl, ?_⟩
  · induction n with
    | zero => rfl
    | succ n ih =>
      show s.step.bind _ = some s
      rw [hstep]
      exact ih
  · refine ⟨{ ({ s with buttons := upd s.buttons k true } : Cpu).set x k with
        waiting_button_for := none }, ?_, by simp [Cpu.set], rfl, rfl, rfl⟩
    unfold Cpu.button_pressed
    rw [if_pos hk]
    have hw2 : ({ s with buttons := upd s.buttons k true } :
        Cpu).waiting_button_for = some x := hw
    rw [hw2]

/-- Concrete instance of C3: waiting on register 5, three idle steps, then
key 7 arrives. -/
theorem c3_key_wait_witness :
    (({ Cpu.default with waiting_button_for := some 5 } :
        Cpu).waiting_button_for = some 5 ∧ (7 : Nat) < 16) ∧
    (({ Cpu.default with waiting_button_for := some 5 } :
        Cpu).stepN 3 = some { Cpu.default with waiting_button_for := some 5 } ∧
      (∀ t : Cpu, (t.wait_for_keypress 5).waiting_button_for = some 5) ∧
      ∃ s', ({ Cpu.default with waiting_button_for := some 5 } :
          Cpu).button_pressed 7 = some s' ∧ s'.v 5 = 7 ∧
        s'.waiting_button_for = none ∧
        s'.pc = ({ Cpu.default with waiting_button_for := some 5 } : Cpu).pc ∧
        s'.step = s'.step_exec) :=
  ⟨⟨rfl, by decide⟩,
    c3_key_wait { Cpu.default with waiting_button_for := some 5 } 5 7 3 rfl
      (by decide)⟩

/-! ## Claim C1 — bounds safety of program-derived indices -/

/-- A two-instruction program: `6510` (set `V5 = 0x10 = 16`) then `E59E`
(skip if the button with number `V5` is pressed).  The second instruction
makes the source index `buttons[16]`, out of bounds for the 16-entry
array. -/
def c1Prog : List Nat := [0x65, 0x10, 0xE5, 0x9E]

/-- The engine right after loading `c1Prog`. -/
def c1s1 : Cpu := (Cpu.load Cpu.default c1Prog).getD Cpu.default

/-- The engine after one further step (`V5` now holds 16). -/
def c1s2 : Cpu := c1s1.step.getD Cpu.default

/-- Evaluation of the code at C1's failing input: the loaded program runs
one step normally (reaching a state that is `Reachable`), and the next
step faults — the button index `V5 = 16` taken from program data is used
unmasked and unclamped to index the 16-entry `buttons` array, so the
source panics (modelled by `step = none`) instead of clamping. -/
theorem c1_unchecked_button_index :
    Cpu.load Cpu.default c1Prog = some c1s1 ∧
    c1s1.step = some c1s2 ∧
    Reachable c1s2 ∧
    c1s2.step = none :=
  ⟨rfl, rfl,
    Reachable.step (@Reachable.load Cpu.default c1s1 c1Prog
      Reachable.init rfl) rfl,
    rfl⟩

/-! ## Claim C4 — stack discipline

Helper lemmas: how each operation affects the stack pointer. -/

theorem draw_sp {s s' : Cpu} {x y n : Nat} (h : s.draw x y n = some s') :
    s'.sp = s.sp := by
  unfold Cpu.draw at h
  split at h
  · injection h with h
    subst h
    rfl
  · exact Option.noConfusion h

theorem call_sp {s s' : Cpu} {addr : Nat} (h : s.call addr = some s') :
    s'.sp = min (s.sp + 1) (STACK_CAPACITY - 1) := by
  unfold Cpu.call at h
  split at h
  · injection h with h
    subst h
    rfl
  · exact Option.noConfusion h

theorem ret_sp {s s' : Cpu} (h : s.ret = some s') : s'.sp = s.sp - 1 := by
  unfold Cpu.ret at h
  split at h
  · injection h with h
    subst h
    rfl
  · exact Option.noConfusion h

theorem skip_pressed_sp {s s' : Cpu} {x : Nat}
    (h : s.skip_pressed x = some s') : s'.sp = s.sp := by
  unfold Cpu.skip_pressed at h
  split at h
  · exact Option.noConfusion h
  · injection h with h
    subst h
    split <;> rfl

theorem skip_not_pressed_sp {s s' : Cpu} {x : Nat}
    (h : s.skip_not_pressed x = some s') : s'.sp = s.sp := by
  unfold Cpu.skip_not_pressed at h
  split at h
  · exact Option.noConfusion h
  · injection h with h
    subst h
    split <;> rfl

theorem store_bcd_sp {s s' : Cpu} {x : Nat}
    (h : s.store_bcd x = some s') : s'.sp = s.sp := by
  unfold Cpu.store_bcd at h
  split at h
  · injection h with h
    subst h
    rfl
  · exact Option.noConfusion h

theorem store_through_fold_sp (L : List Nat) : ∀ s : Cpu,
    (L.foldl
      (fun st xx => { st with memory := upd st.memory (st.i + xx) (st.get xx) })
      s).sp = s.sp := by
  induction L with
  | nil => intro s; rfl
  | cons a L ih => intro s; exact ih _

theorem store_through_sp {s s' : Cpu} {x : Nat}
    (h : s.store_through x = some s') : s'.sp = s.sp := by
  unfold Cpu.store_through at h
  split at h
  · injection h with h
    subst h
    exact store_through_fold_sp _ _
  · exact Option.noConfusion h

theorem read_through_fold_sp (L : List Nat) : ∀ s : Cpu,
    (L.foldl (fun st xx => st.set xx (st.memory (st.i + xx))) s).sp = s.sp := by
  induction L with
  | nil => intro s; rfl
  | cons a L ih => intro s; exact ih _

theorem read_through_sp {s s' : Cpu} {x : Nat}
    (h : s.read_through x = some s') : s'.sp = s.sp := by
  unfold Cpu.read_through at h
  split at h
  · injection h with h
    subst h
    exact read_through_fold_sp _ _
  · exact Option.noConfusion h

theorem load_sp {s s' : Cpu} {bytes : List Nat}
    (h : s.load bytes = some s') : s'.sp = s.sp := by
  unfold Cpu.load at h
  split at h
  · injection h with h
    subst h
    rfl
  · exact Option.noConfusion h

theorem button_pressed_sp {s s' : Cpu} {k : Nat}
    (h : s.button_pressed k = some s') : s'.sp = s.sp := by
  unfold Cpu.button_pressed at h
  split at h
  · simp only [Cpu.set] at h
    split at h <;> (injection h with h; subst h; rfl)
  · exact Option.noConfusion h

theorem button_released_sp {s s' : Cpu} {k : Nat}
    (h : s.button_released k = some s') : s'.sp = s.sp := by
  unfold Cpu.button_released at h
  split at h
  · injection h with h
    subst h
    rfl
  · exact Option.noConfusion h

@[simp] theorem skip_vx_eq_byte_sp (s : Cpu) (x b : Nat) :
    (s.skip_vx_eq_byte x b).sp = s.sp := by
  unfold Cpu.skip_vx_eq_byte
  split <;> rfl

@[simp] theorem skip_vx_neq_byte_sp (s : Cpu) (x b : Nat) :
    (s.skip_vx_neq_byte x b).sp = s.sp := by
  unfold Cpu.skip_vx_neq_byte
  split <;> rfl

@[simp] theorem skip_vx_eq_vy_sp (s : Cpu) (x y : Nat) :
    (s.skip_vx_eq_vy x y).sp = s.sp := by
  unfold Cpu.skip_vx_eq_vy
  split <;> rfl

@[simp] theorem skip_vx_neq_vy_sp (s : Cpu) (x y : Nat) :
    (s.skip_vx_neq_vy x y).sp = s.sp := by
  unfold Cpu.skip_vx_neq_vy
  split <;> rfl

set_option maxHeartbeats 1600000 in
/-- Effect of one `execute` on the stack pointer: unchanged, clamped push,
or saturating pop (arm-by-arm case analysis over the dispatch chain). -/
theorem execute_sp {s s' : Cpu} {ins : Nat} (h : s.execute ins = some s') :
    s'.sp = s.sp ∨ s'.sp = min (s.sp + 1) (STACK_CAPACITY - 1) ∨
      s'.sp = s.sp - 1 := by
  unfold Cpu.execute at h
  by_cases h1 : nibA ins = 0x0 ∧ nibB ins = 0x0 ∧ nibC ins = 0xE ∧ nibD ins = 0x0
  · rw [if_pos h1] at h
    injection h with h
    subst h
    exact Or.inl rfl
  rw [if_neg h1] at h
  by_cases h2 : nibA ins = 0xD
  · rw [if_pos h2] at h
    exact Or.inl (draw_sp h)
  rw [if_neg h2] at h
  by_cases h3 : nibA ins = 0x1
  · rw [if_pos h3] at h
    injection h with h
    subst h
    exact Or.inl rfl
  rw [if_neg h3] at h
  by_cases h4 : nibA ins = 0xB
  · rw [if_pos h4] at h
    injection h with h
    subst h
    exact Or.inl rfl
  rw [if_neg h4] at h
  by_cases h5 : nibA ins = 0x2
  · rw [if_pos h5] at h
    exact Or.inr (Or.inl (call_sp h))
  rw [if_neg h5] at h
  by_cases h6 : nibA ins = 0x0 ∧ nibB ins = 0x0 ∧ nibC ins = 0xE ∧ nibD ins = 0xE
  · rw [if_pos h6] at h
    exact Or.inr (Or.inr (ret_sp h))
  rw [if_neg h6] at h
  by_cases h7 : nibA ins = 0x3
  · rw [if_pos h7] at h
    injection h with h
    subst h
    exact Or.inl (skip_vx_eq_byte_sp s _ _)
  rw [if_neg h7] at h
  by_cases h8 : nibA ins = 0x4
  · rw [if_pos h8] at h
    injection h with h
    subst h
    exact Or.inl (skip_vx_neq_byte_sp s _ _)
  rw [if_neg h8] at h
  by_cases h9 : nibA ins = 0x5
  · rw [if_pos h9] at h
    injection h with h
    subst h
    exact Or.inl (skip_vx_eq_vy_sp s _ _)
  rw [if_neg h9] at h
  by_cases h10 : nibA ins = 0x9 ∧ nibD ins = 0x0
  · rw [if_pos h10] at h
    injection h with h
    subst h
    exact Or.inl (skip_vx_neq_vy_sp s _ _)
  rw [if_neg h10] at h
  by_cases h11 : nibA ins = 0x6
  · rw [if_pos h11] at h
    injection h with h
    subst h
    exact Or.inl rfl
  rw [if_neg h11] at h
  by_cases h12 : nibA ins = 0x7
  · rw [if_pos h12] at h
    injection h with h
    subst h
    exact Or.inl rfl
  rw [if_neg h12] at h
  by_cases h13 : nibA ins = 0x8 ∧ nibD ins = 0x0
  · rw [if_pos h13] at h
    injection h with h
    subst h
    exact Or.inl rfl
  rw [if_neg h13] at h
  by_cases h14 : nibA ins = 0x8 ∧ nibD ins = 0x4
  · rw [if_pos h14] at h
    injection h with h
    subst h
    exact Or.inl rfl
  rw [if_neg h14] at h
  by_cases h15 : nibA ins = 0x8 ∧ nibD ins = 0x5
  · rw [if_pos h15] at h
    injection h with h
    subst h
    exact Or.inl rfl
  rw [if_neg h15] at h
  by_cases h16 : nibA ins = 0x8 ∧ nibD ins = 0x7
  · rw [if_pos h16] at h
    injection h with h
    subst h
    exact Or.inl rfl
  rw [if_neg h16] at h
  by_cases h17 : nibA ins = 0x8 ∧ nibD ins = 0x1
  · rw [if_pos h17] at h
    injection h with h
    subst h
    exact Or.inl rfl
  rw [if_neg h17] at h
  by_cases h18 : nibA ins = 0x8 ∧ nibD ins = 0x2
  · rw [if_pos h18] at h
    injection h with h
    subst h
    exact Or.inl rfl
  rw [if_neg h18] at h
  by_cases h19 : nibA ins = 0x8 ∧ nibD ins = 0x3
  · rw [if_pos h19] at h
    injection h with h
    subst h
    exact Or.inl rfl
  rw [if_neg h19] at h
  by_cases h20 : nibA ins = 0x8 ∧ nibD ins = 0x6
  · rw [if_pos h20] at h
    injection h with h
    subst h
    exact Or.inl rfl
  rw [if_neg h20] at h
  by_cases h21 : nibA ins = 0x8 ∧ nibD ins = 0xE
  · rw [if_pos h21] at h
    injection h with h
    subst h
    exact Or.inl rfl
  rw [if_neg h21] at h
  by_cases h22 : nibA ins = 0xC
  · rw [if_pos h22] at h
    injection h with h
    subst h
    exact Or.inl rfl
  rw [if_neg h22] at h
  by_cases h23 : nibA ins = 0xF ∧ nibC ins = 0x0 ∧ nibD ins = 0x7
  · rw [if_pos h23] at h
    injection h with h
    subst h
    exact Or.inl rfl
  rw [if_neg h23] at h
  by_cases h24 : nibA ins = 0xF ∧ nibC ins = 0x1 ∧ nibD ins = 0x5
  · rw [if_pos h24] at h
    injection h with h
    subst h
    exact Or.inl rfl
  rw [if_neg h24] at h
  by_cases h25 : nibA ins = 0xF ∧ nibC ins = 0x1 ∧ nibD ins = 0x8
  · rw [if_pos h25] at h
    injection h with h
    subst h
    exact Or.inl rfl
  rw [if_neg h25] at h
  by_cases h26 : nibA ins = 0xA
  · rw [if_pos h26] at h
    injection h with h
    subst h
    exact Or.inl rfl
  rw [if_neg h26] at h
  by_cases h27 : nibA ins = 0xF ∧ nibC ins = 0x1 ∧ nibD ins = 0xE
  · rw [if_pos h27] at h
    injection h with h
    subst h
    exact Or.inl rfl
  rw [if_neg h27] at h
  by_cases h28 : nibA ins = 0xF ∧ nibC ins = 0x2 ∧ nibD ins = 0x9
  · rw [if_pos h28] at h
    injection h with h
    subst h
    exact Or.inl rfl
  rw [if_neg h28] at h
  by_cases h29 : nibA ins = 0xE ∧ nibC ins = 0x9 ∧ nibD ins = 0xE
  · rw [if_pos h29] at h
    exact Or.inl (skip_pressed_sp h)
  rw [if_neg h29] at h
  by_cases h30 : nibA ins = 0xE ∧ nibC ins = 0xA ∧ nibD ins = 0x1
  · rw [if_pos h30] at h
    exact Or.inl (skip_not_pressed_sp h)
  rw [if_neg h30] at h
  by_cases h31 : nibA ins = 0xF ∧ nibC ins = 0x0 ∧ nibD ins = 0xA
  · rw [if_pos h31] at h
    injection h with h
    subst h
    exact Or.inl rfl
  rw [if_neg h31] at h
  by_cases h32 : nibA ins = 0xF ∧ nibC ins = 0x3 ∧ nibD ins = 0x3
  · rw [if_pos h32] at h
    exact Or.inl (store_bcd_sp h)
  rw [if_neg h32] at h
  by_cases h33 : nibA ins = 0xF ∧ nibC ins = 0x5 ∧ nibD ins = 0x5
  · rw [if_pos h33] at h
    exact Or.inl (store_through_sp h)
  rw [if_neg h33] at h
  by_cases h34 : nibA ins = 0xF ∧ nibC ins = 0x6 ∧ nibD ins = 0x5
  · rw [if_pos h34] at h
    exact Or.inl (read_through_sp h)
  rw [if_neg h34] at h
  injection h with h
  subst h
  exact Or.inl rfl


/-- Effect of one `step` on the stack pointer. -/
theorem step_sp {s s' : Cpu} (h : s.step = some s') :
    s'.sp = s.sp ∨ s'.sp = min (s.sp + 1) (STACK_CAPACITY - 1) ∨
      s'.sp = s.sp - 1 := by
  unfold Cpu.step at h
  split at h
  · injection h with h
    subst h
    exact Or.inl rfl
  · simp only [Cpu.step_exec] at h
    split at h
    · split at h
      · rename_i s2 heq
        injection h with h
        subst h
        have hex := execute_sp heq
        split <;> exact hex
      · exact Option.noConfusion h
    · exact Option.noConfusion h

/-- In every reachable engine state the stack pointer stays strictly below
the stack capacity. -/
theorem reachable_sp {s : Cpu} (h : Reachable s) : s.sp < STACK_CAPACITY := by
  induction h with
  | init => decide
  | load _hr heq ih => rw [load_sp heq]; exact ih
  | step _hr heq ih =>
    rcases step_sp heq with h1 | h1 | h1 <;> rw [h1] <;>
      simp only [STACK_CAPACITY] at ih ⊢ <;> omega
  | timers _hr ih => exact ih
  | press _hr heq ih => rw [button_pressed_sp heq]; exact ih
  | release _hr heq ih => rw [button_released_sp heq]; exact ih
  | restart _hr _ih => exact (by decide : Cpu.default.sp < STACK_CAPACITY)
  | unload _hr _ih => exact (by decide : Cpu.default.sp < STACK_CAPACITY)

/-- `call`s chained through the Option monad (the panic-propagating
composition of consecutive `2NNN` handler invocations). -/
def callSeq (s : Cpu) : List Nat → Option Cpu
  | [] => some s
  | a :: rest => (s.call a).bind fun s1 => callSeq s1 rest

/-- `n` consecutive `ret` handler invocations chained through the Option
monad. -/
def retN (s : Cpu) : Nat → Option Cpu
  | 0 => some s
  | n + 1 => s.ret.bind fun s1 => retN s1 n

/-- The 16 call addresses used in the C4 overflow scenario. -/
def c4Addrs16 : List Nat :=
  [0x300, 0x302, 0x304, 0x306, 0x308, 0x30A, 0x30C, 0x30E,
   0x310, 0x312, 0x314, 0x316, 0x318, 0x31A, 0x31C, 0x31E]

/-- The engine after 16 consecutive calls from the fresh state. -/
def c4s16 : Cpu := (callSeq Cpu.default c4Addrs16).getD Cpu.default

/-- The engine after the 17th call. -/
def c4s17 : Cpu := (c4s16.call 0x320).getD Cpu.default

/-- The engine after the 17 subsequent returns. -/
def c4send : Cpu := (retN c4s17 17).getD Cpu.default

/-- Claim C4: the stack pointer never reaches the capacity 16 in any
reachable state; a call on a full stack (sp = 15) reuses the topmost slot
and keeps sp at 15; a return on an empty stack saturates sp at 0; and
concretely, 17 consecutive calls followed by 17 returns from the fresh
engine are panic-free — after 16 calls slot 15 holds `0x31C` (the address
recorded by the 16th call), the 17th call overwrites slot 15 with `0x31E`
instead of faulting, and the 17 returns walk the 16 recorded addresses
back down, ending with pc restored to the original `0x200` and sp
saturated at 0. -/
theorem c4_stack_saturation :
    (∀ s : Cpu, Reachable s → s.sp < STACK_CAPACITY) ∧
    (∀ (s : Cpu) (a : Nat), s.sp = STACK_CAPACITY - 1 →
      ∃ s', s.call a = some s' ∧ s'.sp = STACK_CAPACITY - 1 ∧
        s'.stack (STACK_CAPACITY - 1) = s.pc ∧ s'.pc = a ∧
        (∀ j, j < STACK_CAPACITY - 1 → s'.stack j = s.stack j)) ∧
    (∀ s : Cpu, s.sp = 0 →
      ∃ s', s.ret = some s' ∧ s'.sp = 0 ∧ s'.pc = s.stack 0) ∧
    (callSeq Cpu.default c4Addrs16 = some c4s16 ∧
      c4s16.sp = 15 ∧ c4s16.stack 15 = 0x31C ∧ c4s16.pc = 0x31E ∧
      c4s16.call 0x320 = some c4s17 ∧
      c4s17.sp = 15 ∧ c4s17.stack 15 = 0x31E ∧ c4s17.pc = 0x320 ∧
      retN c4s17 17 = some c4send ∧
      c4send.pc = 0x200 ∧ c4send.sp = 0) := by
  refine ⟨fun s h => reachable_sp h, ?_, ?_,
    rfl, rfl, rfl, rfl, rfl, rfl, rfl, rfl, rfl, rfl, rfl⟩
  · intro s a hsp
    have hlt : s.sp < STACK_CAPACITY := by
      rw [hsp]
      decide
    refine ⟨Cpu.jump
      { s with stack := upd s.stack s.sp s.pc,
               sp := min (s.sp + 1) (STACK_CAPACITY - 1) } a,
      ?_, ?_, ?_, rfl, ?_⟩
    · rw [Cpu.call, if_pos hlt]
    · simp [Cpu.jump, hsp]
    · simp [Cpu.jump, hsp]
    · intro j hj
      have hne : j ≠ s.sp := by omega
      simp [Cpu.jump, upd, hne]
  · intro s hsp
    have hlt : s.sp - 1 < STACK_CAPACITY := by
      rw [hsp]
      decide
    refine ⟨{ s with sp := s.sp - 1, pc := s.stack (s.sp - 1) }, ?_, ?_, ?_⟩
    · rw [Cpu.ret, if_pos hlt]
    · simp [hsp]
    · simp [hsp]

/-- Concrete instances of C4's conditional parts: the fresh engine is
reachable with sp below capacity; the state after 16 calls has a full
stack, and one more call saturates; the state after all returns has an
empty stack, and one more return saturates. -/
theorem c4_stack_saturation_witness :
    (Reachable Cpu.default ∧ Cpu.default.sp < STACK_CAPACITY) ∧
    (c4s16.sp = STACK_CAPACITY - 1 ∧
      ∃ s', c4s16.call 0x400 = some s' ∧ s'.sp = STACK_CAPACITY - 1 ∧
        s'.stack (STACK_CAPACITY - 1) = c4s16.pc ∧ s'.pc = 0x400 ∧
        (∀ j, j < STACK_CAPACITY - 1 → s'.stack j = c4s16.stack j)) ∧
    (c4send.sp = 0 ∧
      ∃ s', c4send.ret = some s' ∧ s'.sp = 0 ∧ s'.pc = c4send.stack 0) :=
  ⟨⟨Reachable.init, c4_stack_saturation.1 Cpu.default Reachable.init⟩,
   ⟨rfl, c4_stack_saturation.2.1 c4s16 0x400 rfl⟩,
   ⟨rfl, c4_stack_saturation.2.2.1 c4send rfl⟩⟩

/-! ## Claim C7 — draw XOR semantics and double-draw cancellation -/

/-- The sprite cells a draw flips, as a Boolean mask over display indices:
cell `idx` is flipped exactly when some `(row, col)` of the sprite has its
pixel bit set and wraps to `idx`. -/
def spriteMask (mem : Nat → Nat) (i vx vy n idx : Nat) : Bool :=
  (drawPairs n).any fun p =>
    spriteHit (mem (i + p.1)) p.2 && (target vx vy p == idx)

/-- Collision test of a draw against a display `d`: some sprite pixel lands
on an already-lit cell of `d`. -/
def spriteCollide (mem : Nat → Nat) (i vx vy n : Nat) (d : Nat → Bool) : Bool :=
  (drawPairs n).any fun p =>
    spriteHit (mem (i + p.1)) p.2 && d (target vx vy p)

theorem drawPairs_eq (n : Nat) :
    drawPairs n = (List.range (8 * n)).map fun k => (k / 8, k % 8) := by
  induction n with
  | zero => rfl
  | succ n ih =>
    rw [drawPairs, List.range_succ, List.flatMap_append, ← drawPairs, ih]
    rw [show 8 * (n + 1) = 8 * n + 8 by ring, List.range_add, List.map_append]
    congr 1
    simp only [List.flatMap_cons, List.flatMap_nil, List.append_nil,
      List.map_map]
    apply List.map_congr_left
    intro k hk
    have hk8 : k < 8 := List.mem_range.mp hk
    have hd : (8 * n + k) / 8 = n := by omega
    have hm : (8 * n + k) % 8 = k := by omega
    simp [Function.comp, hd, hm]

theorem drawPairs_mem {n : Nat} {p : Nat × Nat} (hp : p ∈ drawPairs n) :
    p.1 < n ∧ p.2 < 8 := by
  rw [drawPairs_eq] at hp
  obtain ⟨k, hk, rfl⟩ := List.mem_map.mp hp
  have hkn := List.mem_range.mp hk
  constructor
  · simp only []
    omega
  · simp only []
    omega

theorem target_inj {vx vy : Nat} {p q : Nat × Nat}
    (hp1 : p.1 < 32) (hq1 : q.1 < 32) (hp2 : p.2 < 8) (hq2 : q.2 < 8)
    (h : target vx vy p = target vx vy q) : p = q := by
  obtain ⟨p1, p2⟩ := p
  obtain ⟨q1, q2⟩ := q
  unfold target DISPLAY_WIDTH DISPLAY_HEIGHT at h
  simp only at h hp1 hq1 hp2 hq2
  have : p1 = q1 ∧ p2 = q2 := by omega
  simp [this.1, this.2]

/-- For `n ≤ 32` the flipped display indices of distinct sprite cells are
distinct (each row moves to a distinct wrapped line, each column to a
distinct wrapped pixel). -/
theorem drawPairs_pairwise (vx vy : Nat) {n : Nat} (hn : n ≤ 32) :
    (drawPairs n).Pairwise fun p q => target vx vy p ≠ target vx vy q := by
  have hnd : (drawPairs n).Pairwise (· ≠ ·) := by
    rw [drawPairs_eq, List.pairwise_map]
    refine (List.pairwise_lt_range _).imp ?_
    intro a b hab hcontra
    have h1 : a / 8 = b / 8 := congrArg Prod.fst hcontra
    have h2 : a % 8 = b % 8 := congrArg Prod.snd hcontra
    omega
  refine hnd.imp_of_mem ?_
  intro p q hp hq hne hT
  obtain ⟨hp1, hp2⟩ := drawPairs_mem hp
  obtain ⟨hq1, hq2⟩ := drawPairs_mem hq
  exact hne (target_inj (by omega) (by omega) hp2 hq2 hT)

theorem any_congr {α : Type} {p q : α → Bool} :
    ∀ {l : List α}, (∀ a ∈ l, p a = q a) → l.any p = l.any q := by
  intro l
  induction l with
  | nil => intro _; rfl
  | cons a l ih =>
    intro h
    simp only [List.any_cons]
    rw [h a (List.mem_cons_self a l), ih fun b hb => h b (List.mem_cons_of_mem a hb)]

/-- When the sprite cell `p` is lit, one iteration of the draw loop flips
the display pixel at `target p` and ORs the old pixel value into the
overlap flag. -/
theorem drawStep_hit (mem : Nat → Nat) (i vx vy : Nat)
    (acc : (Nat → Bool) × Bool) (p : Nat × Nat)
    (hhit : spriteHit (mem (i + p.1)) p.2 = true) :
    drawStep mem i vx vy acc p =
      (upd acc.1 (target vx vy p) (!acc.1 (target vx vy p)),
        acc.2 || acc.1 (target vx vy p)) := by
  unfold drawStep
  rw [if_pos hhit]
  by_cases hd : acc.1 (target vx vy p)
  · simp [hd]
  · simp [hd]

/-- The display produced by the draw loop: pixel `idx` is the XOR of its
old value with "some lit sprite cell of `L` lands on `idx`", provided no
two cells of `L` land on the same pixel. -/
theorem drawFold_display (mem : Nat → Nat) (i vx vy : Nat) :
    ∀ (L : List (Nat × Nat)) (d : Nat → Bool) (ov : Bool) (idx : Nat),
      (L.Pairwise fun p q => target vx vy p ≠ target vx vy q) →
      (L.foldl (drawStep mem i vx vy) (d, ov)).1 idx =
        if L.any (fun p => spriteHit (mem (i + p.1)) p.2 &&
            (target vx vy p == idx)) then !(d idx) else d idx := by
  intro L
  induction L with
  | nil =>
    intro d ov idx _
    simp
  | cons p L ih =>
    intro d ov idx hpw
    rw [List.pairwise_cons] at hpw
    obtain ⟨hhead, htail⟩ := hpw
    rw [List.foldl_cons, List.any_cons]
    by_cases hhit : spriteHit (mem (i + p.1)) p.2 = true
    · rw [drawStep_hit mem i vx vy (d, ov) p hhit, ih _ _ _ htail]
      by_cases hidx : target vx vy p = idx
      · subst hidx
        have hta : L.any (fun q => spriteHit (mem (i + q.1)) q.2 &&
            (target vx vy q == target vx vy p)) = false := by
          rw [List.any_eq_false]
          intro q hq
          have hne : target vx vy q ≠ target vx vy p :=
            fun hc => hhead q hq hc.symm
          simp [hne]
        rw [hta]
        simp [hhit]
      · have hbeq : (target vx vy p == idx) = false := by
          simp [hidx]
        rw [upd_ne _ _ _ _ fun hc => hidx hc.symm]
        rw [hbeq]
        exact if_congr (by simp) rfl rfl
    · have hhit' : spriteHit (mem (i + p.1)) p.2 = false :=
        Bool.eq_false_iff.mpr hhit
      have hds : drawStep mem i vx vy (d, ov) p = (d, ov) := by
        unfold drawStep
        rw [if_neg (by simp [hhit'])]
      rw [hds, ih _ _ _ htail]
      rw [hhit']
      exact if_congr (by simp) rfl rfl

/-- The overlap flag produced by the draw loop: the old flag ORed with
"some lit sprite cell of `L` lands on an already-lit pixel of the display
the loop started from", provided no two cells of `L` land on the same
pixel. -/
theorem drawFold_overlaps (mem : Nat → Nat) (i vx vy : Nat) :
    ∀ (L : List (Nat × Nat)) (d : Nat → Bool) (ov : Bool),
      (L.Pairwise fun p q => target vx vy p ≠ target vx vy q) →
      (L.foldl (drawStep mem i vx vy) (d, ov)).2 =
        (ov || L.any fun p => spriteHit (mem (i + p.1)) p.2 &&
          d (target vx vy p)) := by
  intro L
  induction L with
  | nil =>
    intro d ov _
    simp
  | cons p L ih =>
    intro d ov hpw
    rw [List.pairwise_cons] at hpw
    obtain ⟨hhead, htail⟩ := hpw
    rw [List.foldl_cons, List.any_cons]
    by_cases hhit : spriteHit (mem (i + p.1)) p.2 = true
    · rw [drawStep_hit mem i vx vy (d, ov) p hhit, ih _ _ htail]
      have hcg : L.any (fun q => spriteHit (mem (i + q.1)) q.2 &&
            upd d (target vx vy p) (!d (target vx vy p)) (target vx vy q)) =
          L.any (fun q => spriteHit (mem (i + q.1)) q.2 &&
            d (target vx vy q)) := by
        apply any_congr
        intro q hq
        rw [upd_ne _ _ _ _ (hhead q hq).symm]
      rw [hcg]
      rw [hhit]
      simp [Bool.or_assoc]
    · have hhit' : spriteHit (mem (i + p.1)) p.2 = false :=
        Bool.eq_false_iff.mpr hhit
      have hds : drawStep mem i vx vy (d, ov) p = (d, ov) := by
        unfold drawStep
        rw [if_neg (by simp [hhit'])]
      rw [hds, ih _ _ htail]
      rw [hhit']
      simp

/-- A draw collides with display `d` exactly when some cell of its flip
mask is already lit in `d`. -/
theorem collide_iff (mem : Nat → Nat) (i vx vy n : Nat) (d : Nat → Bool) :
    spriteCollide mem i vx vy n d = true ↔
      ∃ idx, spriteMask mem i vx vy n idx = true ∧ d idx = true := by
  unfold spriteCollide spriteMask
  rw [List.any_eq_true]
  constructor
  · rintro ⟨p, hp, hpp⟩
    rw [Bool.and_eq_true] at hpp
    refine ⟨target vx vy p, List.any_eq_true.mpr ⟨p, hp, ?_⟩, hpp.2⟩
    simp [hpp.1]
  · rintro ⟨idx, hm, hd⟩
    rw [List.any_eq_true] at hm
    obtain ⟨p, hp, hpp⟩ := hm
    rw [Bool.and_eq_true, beq_iff_eq] at hpp
    refine ⟨p, hp, ?_⟩
    rw [Bool.and_eq_true]
    exact ⟨hpp.1, hpp.2 ▸ hd⟩

/-- Full characterization of a successful `draw`: the new display is the
pointwise XOR of the old one with the sprite's flip mask (coordinates
wrapped mod 64/32 inside `target`), VF becomes the 0/1 collision flag
computed against the pre-draw display, the changed flag is raised, and
nothing else moves. -/
theorem draw_spec (s : Cpu) (x y n : Nat) (hn : n ≤ 32)
    (hb : ∀ row, row < n → s.i + row < MEMORY_CAPACITY) :
    ∃ s', s.draw x y n = some s' ∧
      (∀ idx, s'.display idx = Bool.xor (s.display idx)
        (spriteMask s.memory s.i (s.get x) (s.get y) n idx)) ∧
      s'.v 15 = (if spriteCollide s.memory s.i (s.get x) (s.get y) n s.display
        then 1 else 0) ∧
      s'.display_changed = true ∧
      (∀ j, j ≠ 15 → s'.v j = s.v j) ∧
      s'.memory = s.memory ∧ s'.i = s.i ∧ s'.pc = s.pc ∧
      s'.sp = s.sp ∧ s'.stack = s.stack ∧ s'.buttons = s.buttons ∧
      s'.waiting_button_for = s.waiting_button_for ∧ s'.tick = s.tick ∧
      s'.jump_next = s.jump_next ∧ s'.dt = s.dt ∧ s'.st = s.st ∧
      s'.ready = s.ready := by
  have hpw := drawPairs_pairwise (s.get x) (s.get y) hn
  have hguard : ((List.range n).all fun row =>
      decide (s.i + row < MEMORY_CAPACITY)) = true := by
    rw [List.all_eq_true]
    intro row hrow
    rw [decide_eq_true_eq]
    exact hb row (List.mem_range.mp hrow)
  refine ⟨{ s.set 0xF (if ((drawPairs n).foldl
        (drawStep s.memory s.i (s.get x) (s.get y)) (s.display, false)).2
        then 1 else 0) with
      display := ((drawPairs n).foldl
        (drawStep s.memory s.i (s.get x) (s.get y)) (s.display, false)).1
      display_changed := true },
    ?_, ?_, ?_, rfl, ?_, rfl, rfl, rfl, rfl, rfl, rfl, rfl, rfl, rfl, rfl,
    rfl, rfl⟩
  · unfold Cpu.draw
    rw [if_pos hguard]
  · intro idx
    show ((drawPairs n).foldl
      (drawStep s.memory s.i (s.get x) (s.get y)) (s.display, false)).1 idx = _
    rw [drawFold_display s.memory s.i (s.get x) (s.get y) (drawPairs n)
      s.display false idx hpw]
    unfold spriteMask
    by_cases hA : ((drawPairs n).any fun p =>
        spriteHit (s.memory (s.i + p.1)) p.2 &&
          (target (s.get x) (s.get y) p == idx)) = true
    · rw [if_pos hA, hA, Bool.xor_true]
    · have hF := Bool.eq_false_iff.mpr hA
      rw [if_neg hA, hF, Bool.xor_false]
  · simp only [Cpu.set, upd_same]
    rw [drawFold_overlaps s.memory s.i (s.get x) (s.get y) (drawPairs n)
      s.display false hpw]
    rw [Bool.false_or]
    rfl
  · intro j hj
    simp only [Cpu.set]
    rw [upd_ne _ _ _ _ hj]

/-- Claim C7: a (in-bounds) draw XORs the sprite onto the framebuffer with
wrapped coordinates, reports the on→off collision in VF as 0/1, and raises
the changed flag; drawing the identical sprite at the same coordinates
again (the coordinate registers are not VF, so the first draw's VF write
does not move the sprite) restores the pre-draw framebuffer exactly, and
the second draw reports VF = 1 exactly when it cleared some pixel that was
lit after the first draw. -/
theorem c7_draw_xor_double (s : Cpu) (x y n : Nat) (hx : x ≠ 15)
    (hy : y ≠ 15) (hn : n ≤ 32)
    (hb : ∀ row, row < n → s.i + row < MEMORY_CAPACITY) :
    ∃ s', s.draw x y n = some s' ∧
      (∀ idx, s'.display idx = Bool.xor (s.display idx)
        (spriteMask s.memory s.i (s.get x) (s.get y) n idx)) ∧
      s'.v 15 = (if spriteCollide s.memory s.i (s.get x) (s.get y) n s.display
        then 1 else 0) ∧
      s'.display_changed = true ∧
      ∃ s2, s'.draw x y n = some s2 ∧
        s2.display = s.display ∧
        s2.v 15 = (if spriteCollide s.memory s.i (s.get x) (s.get y) n
          s'.display then 1 else 0) ∧
        (s2.v 15 = 1 ↔ ∃ idx,
          spriteMask s.memory s.i (s.get x) (s.get y) n idx = true ∧
          s'.display idx = true) ∧
        s2.display_changed = true := by
  obtain ⟨s', hdraw, hdisp, hvf, hch, hvj, hmem, hi, hpc, hsp, hstack, hbtn,
    hwait, htick, hjn, hdt, hst, hready⟩ := draw_spec s x y n hn hb
  have hgx : s'.get x = s.get x := hvj x hx
  have hgy : s'.get y = s.get y := hvj y hy
  have hb' : ∀ row, row < n → s'.i + row < MEMORY_CAPACITY := by
    rw [hi]
    exact hb
  obtain ⟨s2, hdraw2, hdisp2, hvf2, hch2, hvj2, hmem2, hi2, hrest⟩ :=
    draw_spec s' x y n hn hb'
  have hmask : ∀ idx,
      spriteMask s'.memory s'.i (s'.get x) (s'.get y) n idx =
        spriteMask s.memory s.i (s.get x) (s.get y) n idx := by
    intro idx
    rw [hmem, hi, hgx, hgy]
  have hcol : spriteCollide s'.memory s'.i (s'.get x) (s'.get y) n s'.display =
      spriteCollide s.memory s.i (s.get x) (s.get y) n s'.display := by
    rw [hmem, hi, hgx, hgy]
  refine ⟨s', hdraw, hdisp, hvf, hch, s2, hdraw2, ?_, ?_, ?_, hch2⟩
  · funext idx
    rw [hdisp2 idx, hmask idx, hdisp idx, Bool.xor_assoc, Bool.xor_self,
      Bool.xor_false]
  · rw [hvf2, hcol]
  · rw [hvf2, hcol]
    by_cases hc : spriteCollide s.memory s.i (s.get x) (s.get y) n
        s'.display = true
    · rw [if_pos hc]
      exact iff_of_true rfl
        ((collide_iff s.memory s.i (s.get x) (s.get y) n s'.display).mp hc)
    · rw [if_neg hc]
      refine iff_of_false (by omega) fun hex => hc ?_
      exact (collide_iff s.memory s.i (s.get x) (s.get y) n s'.display).mpr hex

/-- Concrete instance of C7: drawing the 5-row glyph at `I = 0` twice on
the fresh engine. -/
theorem c7_draw_xor_double_witness :
    ((0 : Nat) ≠ 15 ∧ (1 : Nat) ≠ 15 ∧ (5 : Nat) ≤ 32) ∧
    (∃ s', Cpu.default.draw 0 1 5 = some s' ∧
      (∀ idx, s'.display idx = Bool.xor (Cpu.default.display idx)
        (spriteMask Cpu.default.memory Cpu.default.i (Cpu.default.get 0)
          (Cpu.default.get 1) 5 idx)) ∧
      s'.v 15 = (if spriteCollide Cpu.default.memory Cpu.default.i
        (Cpu.default.get 0) (Cpu.default.get 1) 5 Cpu.default.display
        then 1 else 0) ∧
      s'.display_changed = true ∧
      ∃ s2, s'.draw 0 1 5 = some s2 ∧
        s2.display = Cpu.default.display ∧
        s2.v 15 = (if spriteCollide Cpu.default.memory Cpu.default.i
          (Cpu.default.get 0) (Cpu.default.get 1) 5 s'.display
          then 1 else 0) ∧
        (s2.v 15 = 1 ↔ ∃ idx, spriteMask Cpu.default.memory Cpu.default.i
          (Cpu.default.get 0) (Cpu.default.get 1) 5 idx = true ∧
          s'.display idx = true) ∧
        s2.display_changed = true) :=
  ⟨⟨by decide, by decide, by decide⟩,
    c7_draw_xor_double Cpu.default 0 1 5 (by decide) (by decide) (by decide)
      (fun row hr => by
        show 0 + row < 4096
        omega)⟩

end Pitch
